import Mathlib

/-!
Verification of the TVM RPC endpoint core (src/runtime/rpc/rpc_endpoint.cc).

The development shallowly embeds the event-driven state machine of
`RPCEndpoint::EventHandler`, the packed-value codec hooks
(`WriteFFIAny` / `ReadFFIAny` / `GetFFIAnyProtocolBytes`), the drive loop's
channel-closure handling, and the chunked-copy logic of `RPCClientSession`.

Wire bytes are modelled as `List Nat` (each entry one octet); wire strings
and error messages as `List Char` (one char per byte). Machine integers are
`Nat` with explicit `% 2 ^ w` where wrap-around matters. Code that the
excerpt only calls but does not define (the `RPCReference` packed-sequence
serializer, `support::StartsWith`, protocol constants) is modelled from the
specification and marked as such in its doc comment.
-/

namespace TVMRPC

/-- The states of `RPCEndpoint::EventHandler` (enum `State`). -/
inductive State
  | kInitHeader
  | kRecvPacketNumBytes
  | kProcessPacket
  | kWaitForAsyncCallback
  | kReturnReceived
  | kCopyAckReceived
  | kShutdownReceived
deriving DecidableEq

/-- The RPC opcodes used by the endpoint (enum `RPCCode`); numeric values are
not needed by the embedding, only the identities of the codes. -/
inductive RPCCode
  | kNone
  | kShutdown
  | kInitServer
  | kCallFunc
  | kReturn
  | kException
  | kCopyFromRemote
  | kCopyToRemote
  | kCopyAck
  | kGetGlobalFunc
  | kFreeHandle
  | kDevSetDevice
  | kDevGetAttr
  | kDevAllocData
  | kDevFreeData
  | kDevStreamSync
  | kCopyAmongRemote
  | kDevCreateStream
  | kDevFreeStream
  | kDevSetStream
  | kDevGetCurrentStream
  | kDevAllocDataWithScope
deriving DecidableEq

/-! ## The FFI-any codec for remote object handles

`RPCEndpoint::EventHandler::WriteFFIAny` writes a `uint32_t` type tag
followed by the 64-bit handle (written through `Write<int64_t>`; a
`uint64_t` reinterpreted as two's-complement `int64_t` has the same
little-endian bytes). `ReadFFIAny` reads the tag, checks it, and reads the
handle back. `GetFFIAnyProtocolBytes` is the dry-run length. -/

/-- Little-endian byte encoding of a 32-bit word (4 octets). -/
def u32le (v : Nat) : List Nat :=
  [v % 256, v / 256 % 256, v / 65536 % 256, v / 16777216 % 256]

/-- Little-endian byte encoding of a 64-bit word (8 octets). -/
def u64le (v : Nat) : List Nat :=
  [v % 256, v / 256 % 256, v / 65536 % 256, v / 16777216 % 256,
   v / 4294967296 % 256, v / 1099511627776 % 256,
   v / 281474976710656 % 256, v / 72057594037927936 % 256]

/-- Consume 4 bytes from the stream and assemble the little-endian u32. -/
def readU32 : List Nat → Option (Nat × List Nat)
  | b0 :: b1 :: b2 :: b3 :: rest =>
      some (b0 + 256 * b1 + 65536 * b2 + 16777216 * b3, rest)
  | _ => none

/-- Consume 8 bytes from the stream and assemble the little-endian u64. -/
def readU64 : List Nat → Option (Nat × List Nat)
  | b0 :: b1 :: b2 :: b3 :: b4 :: b5 :: b6 :: b7 :: rest =>
      some (b0 + 256 * b1 + 65536 * b2 + 16777216 * b3 + 4294967296 * b4 +
            1099511627776 * b5 + 281474976710656 * b6 +
            72057594037927936 * b7, rest)
  | _ => none

/-- Modelled from the spec: the fixed 4-byte type tag
`runtime::TypeIndex::kRuntimeRPCObjectRef` used for remote-object handles.
Its numeric value is defined outside the excerpt; the protocol only requires
the writer and the reader to agree on it, so a fixed representative is used. -/
def kRuntimeRPCObjectRef : Nat := 72

/-- `WriteFFIAny` on a remote-object reference: the type tag followed by the
64-bit handle, all little-endian. -/
def writeFFIAny (handle : Nat) : List Nat :=
  u32le kRuntimeRPCObjectRef ++ u64le handle

/-- `GetFFIAnyProtocolBytes` on a remote-object reference:
`sizeof(uint32_t) + sizeof(int64_t)`. -/
def getFFIAnyProtocolBytes : Nat := 4 + 8

/-- The value produced by `ReadFFIAny`: always a remote object reference
(wrapped back in an `RPCObjectRef` for multi-hop RPC). -/
inductive FFIAnyValue
  | rpcObjectRef (handle : Nat)
deriving DecidableEq

/-- `ReadFFIAny`: read the type tag; on `kRuntimeRPCObjectRef` read the
handle and wrap it as a remote object reference; any other tag is fatal
(`LOG(FATAL)`), modelled as `none`. -/
def readFFIAny (bytes : List Nat) : Option (FFIAnyValue × List Nat) :=
  match readU32 bytes with
  | none => none
  | some (typeIndex, rest) =>
      if typeIndex = kRuntimeRPCObjectRef then
        match readU64 rest with
        | none => none
        | some (handle, rest2) => some (FFIAnyValue.rpcObjectRef handle, rest2)
      else none

lemma readU32_u32le (v : Nat) (hv : v < 4294967296) (rest : List Nat) :
    readU32 (u32le v ++ rest) = some (v, rest) := by
  simp only [u32le, List.cons_append, List.nil_append, readU32]
  refine congrArg some (Prod.ext ?_ rfl)
  simp only
  omega

lemma readU64_u64le (v : Nat) (hv : v < 18446744073709551616) (rest : List Nat) :
    readU64 (u64le v ++ rest) = some (v, rest) := by
  simp only [u64le, List.cons_append, List.nil_append, readU64]
  refine congrArg some (Prod.ext ?_ rfl)
  simp only
  omega

/-! ## Wire sizes of packed sequences and tensor descriptors

The `RPCReference` serializer itself is outside the excerpt; only its byte
counts matter to the event handler's pending-byte accounting. -/

/-- A packed argument value, as far as its wire size and the fields the
handlers inspect are concerned. -/
inductive RPCArg
  | nullArg
  | intArg (v : Int)
  | floatArg
  | strArg (s : List Char)
  | bytesArg (n : Nat)
  | dtypeArg
  | deviceArg
  | tensorArg (ndim : Nat)
  | objectHandleArg (handle : Nat)
deriving DecidableEq

/-- Modelled from the spec: on-wire size of a tensor descriptor
(`RPCReference::SendDLTensor` / `ReceiveDLTensor`):
device(8) + u64 data(8) + u32 ndim(4) + shape(ndim x i64) + dtype(4) +
u64 byte_offset(8). -/
def tensorWireBytes (ndim : Nat) : Nat := 8 + 8 + 4 + 8 * ndim + 4 + 8

/-- Modelled from the spec: on-wire payload size of one packed value
(section 4.3 table); the remote-object-handle case (4-byte type tag plus
8-byte handle) agrees with `GetFFIAnyProtocolBytes` of the excerpt. -/
def argWireBytes : RPCArg → Nat
  | RPCArg.nullArg => 0
  | RPCArg.intArg _ => 8
  | RPCArg.floatArg => 8
  | RPCArg.strArg s => 8 + s.length
  | RPCArg.bytesArg n => 8 + n
  | RPCArg.dtypeArg => 4
  | RPCArg.deviceArg => 8
  | RPCArg.tensorArg ndim => tensorWireBytes ndim
  | RPCArg.objectHandleArg _ => getFFIAnyProtocolBytes

/-- Modelled from the spec: on-wire size of a packed sequence
(`RPCReference::PackedSeqGetNumBytes` / `RecvPackedSeq`): u32 num_args,
one u32 type code per argument, then the payloads. -/
def packedSeqWireBytes (args : List RPCArg) : Nat :=
  4 + 4 * args.length + (args.map argWireBytes).sum

/-! ## The event handler state -/

/-- One `SwitchToState` invocation: destination state and the value of
`pending_request_bytes_` at the moment of the call (the quantity the
`ICHECK_EQ` in `SwitchToState` tests when the destination is not
`kCopyAckReceived`). -/
structure SwitchCall where
  dest : State
  pendingAt : Nat
deriving DecidableEq

/-- A record of one write into the outgoing ring buffer. Full reply packets
emitted through the `RPCReference` helpers (which are outside the excerpt)
are logged as single records. -/
inductive WriteRec
  | u64 (v : Nat)
  | code (c : RPCCode)
  | bytesFrom (srcAddr : Nat) (n : Nat)
  | bytesStaged (n : Nat)
  | retVoid
  | excMsg (msg : List Char)
  | retPacked
deriving DecidableEq

/-- Which asynchronous serving-session operation the handler is waiting on
while in `kWaitForAsyncCallback` (determines what the completion callback
writes before switching back to `kRecvPacketNumBytes`). -/
inductive WaitKind
  | callFunc
  | copyFromRemote (dataBytes : Nat)
  | copyToRemote
  | streamSync
deriving DecidableEq

/-- The event handler. `pending` is `pending_request_bytes_`;
`sessionLocal` models `serving_session_` (`none` = null pointer, `some b`
= installed with `IsLocalSession() = b`); `protocolVer` is the compiled
`kRPCProtocolVer` constant the handler was built with; `raised` is set when
a `LOG(FATAL)` / `ICHECK` failure raises, after which the endpoint is dead.
`sent`, `arenaAllocs`, `switchLog` and `opcodesRead` are ghost logs of the
writer output, the `ArenaAlloc` calls, the `SwitchToState` calls and the
`Read(RPCCode*)` calls. -/
structure Handler where
  state : State
  pending : Nat
  remoteKey : List Char
  initHeaderStep : Nat
  protocolVer : List Char
  sessionLocal : Option Bool
  waiting : Option WaitKind
  raised : Option (List Char)
  sent : List WriteRec
  arenaAllocs : List Nat
  switchLog : List SwitchCall
  opcodesRead : List RPCCode

/-- `RequestBytes(nbytes)`: grow the pending-byte request. -/
def requestBytes (h : Handler) (n : Nat) : Handler :=
  { h with pending := h.pending + n }

/-- The protected `Read(data, size)` override: consumes `size` bytes from
the reader and decrements `pending_request_bytes_`. -/
def consumeBytes (h : Handler) (n : Nat) : Handler :=
  { h with pending := h.pending - n }

/-- `SwitchToState(state)`: log the transition (the assertion's observation
point), change state, and on entry to `kRecvPacketNumBytes` request the
next 8-byte length prefix (the arena recycle has no observable effect in
this model). -/
def switchToState (h : Handler) (s : State) : Handler :=
  let h2 : Handler := { h with state := s, switchLog := h.switchLog ++ [⟨s, h.pending⟩] }
  if s = State.kRecvPacketNumBytes then requestBytes h2 8 else h2

/-- `CanCleanShutdown()`: `state_ == kRecvPacketNumBytes`. -/
def canCleanShutdown (h : Handler) : Bool :=
  decide (h.state = State.kRecvPacketNumBytes)

/-- The sentinel remote key that makes the endpoint run the init-header
handshake itself. -/
def toinitKey : List Char := "%toinit".toList

/-- The `EventHandler` constructor: `Clear()` sets `kRecvPacketNumBytes`
with 8 pending bytes; a `"%toinit"` remote key then switches to
`kInitHeader`, clears the key and requests `sizeof(int32_t)` bytes. -/
def initHandler (remoteKey protocolVer : List Char) : Handler :=
  let h : Handler :=
    { state := State.kRecvPacketNumBytes, pending := 8,
      remoteKey := remoteKey, initHeaderStep := 0, protocolVer := protocolVer,
      sessionLocal := none, waiting := none, raised := none,
      sent := [], arenaAllocs := [], switchLog := [], opcodesRead := [] }
  if remoteKey = toinitKey then
    { h with state := State.kInitHeader, remoteKey := [], pending := 4 }
  else h

/-! ## Reply helpers and error raising -/

/-- Modelled from the spec: `RPCReference::ReturnException` writes a full
`Exception` packet carrying the message. -/
def returnException (h : Handler) (msg : List Char) : Handler :=
  { h with sent := h.sent ++ [WriteRec.excMsg msg] }

/-- Modelled from the spec: `RPCReference::ReturnVoid` writes a `Return`
packet with a null value. -/
def returnVoid (h : Handler) : Handler :=
  { h with sent := h.sent ++ [WriteRec.retVoid] }

/-- Modelled from the spec: `RPCReference::ReturnPackedSeq` writes a
`Return` packet with the packed values. -/
def returnPackedSeq (h : Handler) : Handler :=
  { h with sent := h.sent ++ [WriteRec.retPacked] }

/-- `LOG(FATAL)` / failed `ICHECK`: raise locally; execution of the
endpoint stops. -/
def raiseFatal (h : Handler) (msg : List Char) : Handler :=
  { h with raised := some msg }

/-- Modelled from the spec: `support::StartsWith(value, p)` tests whether
`value` begins with `p`. -/
def startsWith (value p : List Char) : Bool := List.isPrefixOf p value

/-- The timeout-error marker tested by `HandleReturn`. -/
def timeoutErrorMark : List Char := "RPCSessionTimeoutError: ".toList

/-- The banner prepended to non-timeout remote errors by `HandleReturn`. -/
def rpcErrorBanner : List Char := "RPCError: Error caught from RPC call:\n".toList

/-- Message of the `ICHECK_EQ` protocol-version test in `HandleInitServer`. -/
def protocolMismatchMsg : List Char :=
  "Client protocol version mismatch with the server".toList

/-! ## Opcode handlers -/

/-- A received tensor descriptor, restricted to the fields the handlers
inspect: whether the device is `kDLCPU`, the shape rank, the opaque data
address and the byte offset. -/
structure TensorDesc where
  deviceIsCPU : Bool
  ndim : Nat
  data : Nat
  byteOffset : Nat
deriving DecidableEq

/-- The compile-time `DMLC_IO_NO_ENDIAN_SWAP` constant. The core targets
little-endian hosts (spec design notes), where no swap is needed. -/
def dmlcIoNoEndianSwap : Bool := true

/-- First argument of a packed sequence when it is a string (the
`args[0].cast<String>()` in `HandleReturn`; a non-string first argument
makes the cast throw). -/
def argFirstString : List RPCArg → Option (List Char)
  | RPCArg.strArg s :: _ => some s
  | _ => none

/-- `HandleReturn`: receive the packed sequence; on `kException` switch back
to `kRecvPacketNumBytes` first, then raise the first string, verbatim when
it starts with the timeout marker and wrapped in the RPC-error banner
otherwise; on `kReturn` invoke `setreturn` and switch to
`kReturnReceived`. -/
def handleReturn (h : Handler) (isException : Bool) (args : List RPCArg) : Handler :=
  let h1 := consumeBytes h (packedSeqWireBytes args)
  if isException then
    let h2 := switchToState h1 State.kRecvPacketNumBytes
    match argFirstString args with
    | some msg =>
        raiseFatal h2 (if startsWith msg timeoutErrorMark then msg
                       else rpcErrorBanner ++ msg)
    | none => raiseFatal h2 "cast to String failed".toList
  else
    switchToState h1 State.kReturnReceived

/-- `HandleInitServer`. `ctorResult` models the outcome of looking up and
invoking the session constructor through the global function registry
(external to the excerpt): `some isLocal` means a session was produced with
`IsLocalSession() = isLocal`; `none` means the lookup, the constructor call
or the module-type checks failed (a `LOG(FATAL)` inside the `try` block,
caught and turned into an exception reply). All `ICHECK` failures inside
the `try` block are caught and answered with `ReturnException`; the handler
always switches back to `kRecvPacketNumBytes` afterwards. -/
def handleInitServer (h : Handler) (clientVer : List Char) (args : List RPCArg)
    (ctorResult : Option Bool) : Handler :=
  let h1 := consumeBytes h 8
  let h2 := consumeBytes h1 clientVer.length
  let h3 := consumeBytes h2 (packedSeqWireBytes args)
  let h4 :=
    if h3.sessionLocal ≠ none then
      returnException h3 "Server has already been initialized".toList
    else if clientVer ≠ h3.protocolVer then
      returnException h3 protocolMismatchMsg
    else
      match args with
      | [] =>
          -- serving_session_ = std::make_shared<LocalSession>() is assigned
          -- before the registry constructor replaces it
          let h5 : Handler := { h3 with sessionLocal := some true }
          match ctorResult with
          | some isLocal => returnVoid { h5 with sessionLocal := some isLocal }
          | none => returnException h5 "Error caught from session constructor".toList
      | _ :: _ =>
          match ctorResult with
          | some isLocal => returnVoid { h3 with sessionLocal := some isLocal }
          | none => returnException h3 "Error caught from session constructor".toList
  switchToState h4 State.kRecvPacketNumBytes

/-- The `fcopyack` closure of `HandleCopyFromRemote`: write the packet
length (`sizeof(code) + num_bytes`), the `kCopyAck` opcode and the payload
(directly from tensor memory when `srcAddr` is given, from the staging
buffer otherwise), then switch back to `kRecvPacketNumBytes`. -/
def fcopyack (h : Handler) (srcAddr : Option Nat) (numBytes : Nat) : Handler :=
  let payload := match srcAddr with
    | some a => WriteRec.bytesFrom a numBytes
    | none => WriteRec.bytesStaged numBytes
  let h1 : Handler :=
    { h with sent := h.sent ++ [WriteRec.u64 (4 + numBytes), WriteRec.code RPCCode.kCopyAck, payload] }
  switchToState h1 State.kRecvPacketNumBytes

/-- `HandleCopyFromRemote`: read the tensor descriptor and `data_bytes`;
`GetServingSession` asserts a session is installed; a CPU-resident tensor
on a local session (on a no-swap host) is acknowledged directly from
`data + byte_offset`, otherwise a staging buffer of `data_bytes` is
allocated in the arena and the handler waits for the async copy. -/
def handleCopyFromRemote (h : Handler) (arr : TensorDesc) (dataBytes : Nat) : Handler :=
  let h1 := consumeBytes h (tensorWireBytes arr.ndim)
  let h2 := consumeBytes h1 8
  match h2.sessionLocal with
  | none =>
      raiseFatal h2 "Need to call InitRemoteSession first before any further actions".toList
  | some isLocal =>
      if arr.deviceIsCPU && isLocal && dmlcIoNoEndianSwap then
        fcopyack h2 (some (arr.data + arr.byteOffset)) dataBytes
      else
        let h3 : Handler := { h2 with arenaAllocs := h2.arenaAllocs ++ [dataBytes] }
        let h4 := switchToState h3 State.kWaitForAsyncCallback
        { h4 with waiting := some (WaitKind.copyFromRemote dataBytes) }

/-- `HandleCopyToRemote`: read the tensor descriptor and `data_bytes`; a
CPU-resident tensor on a local session receives the bytes directly and the
handler returns void; otherwise the bytes are staged into an arena buffer
and the handler waits for the async copy. -/
def handleCopyToRemote (h : Handler) (arr : TensorDesc) (dataBytes : Nat) : Handler :=
  let h1 := consumeBytes h (tensorWireBytes arr.ndim)
  let h2 := consumeBytes h1 8
  match h2.sessionLocal with
  | none =>
      raiseFatal h2 "Need to call InitRemoteSession first before any further actions".toList
  | some isLocal =>
      if arr.deviceIsCPU && isLocal then
        let h3 := consumeBytes h2 dataBytes
        switchToState (returnVoid h3) State.kRecvPacketNumBytes
      else
        let h3 : Handler := { h2 with arenaAllocs := h2.arenaAllocs ++ [dataBytes] }
        let h4 := consumeBytes h3 dataBytes
        let h5 := switchToState h4 State.kWaitForAsyncCallback
        { h5 with waiting := some WaitKind.copyToRemote }

/-- `HandleNormalCallFunc`: read the function handle and the packed
arguments, switch to `kWaitForAsyncCallback`, then dispatch through
`GetServingSession` (whose `ICHECK` raises when no session is installed). -/
def handleNormalCallFunc (h : Handler) (args : List RPCArg) : Handler :=
  let h1 := consumeBytes h 8
  let h2 := consumeBytes h1 (packedSeqWireBytes args)
  let h3 := switchToState h2 State.kWaitForAsyncCallback
  match h3.sessionLocal with
  | none =>
      raiseFatal h3 "Need to call InitRemoteSession first before any further actions".toList
  | some _ => { h3 with waiting := some WaitKind.callFunc }

/-- `SysCallHandler`: receive the packed arguments, run the syscall against
the serving session inside a `try` block (`opOk` models whether the
operation succeeded; a missing session fails the `GetServingSession`
`ICHECK`, which the `catch` turns into an exception reply), reply, and
switch back to `kRecvPacketNumBytes`. -/
def handleSyscall (h : Handler) (args : List RPCArg) (opOk : Bool) : Handler :=
  let h1 := consumeBytes h (packedSeqWireBytes args)
  let h2 :=
    if h1.sessionLocal = none then
      returnException h1 "Need to call InitRemoteSession first before any further actions".toList
    else if opOk then returnPackedSeq h1
    else returnException h1 "syscall raised".toList
  switchToState h2 State.kRecvPacketNumBytes

/-- `HandleSyscallStreamSync`: receive the packed arguments; when the casts
succeed (`argsOk`), switch to `kWaitForAsyncCallback` and dispatch through
`GetServingSession` (a missing session raises inside the `try` block and is
answered with an exception reply plus a switch back to idle); when a cast
fails, reply with the exception and switch back to idle. -/
def handleSyscallStreamSync (h : Handler) (args : List RPCArg) (argsOk : Bool) : Handler :=
  let h1 := consumeBytes h (packedSeqWireBytes args)
  if argsOk then
    let h2 := switchToState h1 State.kWaitForAsyncCallback
    match h2.sessionLocal with
    | none =>
        switchToState
          (returnException h2 "Need to call InitRemoteSession first before any further actions".toList)
          State.kRecvPacketNumBytes
    | some _ => { h2 with waiting := some WaitKind.streamSync }
  else
    switchToState (returnException h1 "cast failed".toList) State.kRecvPacketNumBytes

/-! ## Packets and the event loop -/

/-- A well-formed received packet (one wire unit after the `u64` length
prefix), carrying the data the handlers inspect. Auxiliary booleans model
outcomes of operations external to the excerpt (session constructor,
syscall execution, argument casts). -/
inductive Packet
  | initServer (clientVer : List Char) (args : List RPCArg) (ctorResult : Option Bool)
  | callFunc (args : List RPCArg)
  | retPacket (args : List RPCArg)
  | excPacket (args : List RPCArg)
  | copyFromRemote (arr : TensorDesc) (dataBytes : Nat)
  | copyToRemote (arr : TensorDesc) (dataBytes : Nat)
  | copyAck (dataBytes : Nat)
  | shutdown
  | syscall (args : List RPCArg) (opOk : Bool)
  | streamSync (args : List RPCArg) (argsOk : Bool)

/-- Body size of a packet after its 4-byte opcode: a conforming peer's
length prefix equals `4 + payloadBytes p`. -/
def payloadBytes : Packet → Nat
  | Packet.initServer ver args _ => 8 + ver.length + packedSeqWireBytes args
  | Packet.callFunc args => 8 + packedSeqWireBytes args
  | Packet.retPacket args => packedSeqWireBytes args
  | Packet.excPacket args => packedSeqWireBytes args
  | Packet.copyFromRemote arr _ => tensorWireBytes arr.ndim + 8
  | Packet.copyToRemote arr dataBytes => tensorWireBytes arr.ndim + 8 + dataBytes
  | Packet.copyAck dataBytes => dataBytes
  | Packet.shutdown => 0
  | Packet.syscall args _ => packedSeqWireBytes args
  | Packet.streamSync args _ => packedSeqWireBytes args

/-- The opcode carried by a packet. -/
def packetCode : Packet → RPCCode
  | Packet.initServer _ _ _ => RPCCode.kInitServer
  | Packet.callFunc _ => RPCCode.kCallFunc
  | Packet.retPacket _ => RPCCode.kReturn
  | Packet.excPacket _ => RPCCode.kException
  | Packet.copyFromRemote _ _ => RPCCode.kCopyFromRemote
  | Packet.copyToRemote _ _ => RPCCode.kCopyToRemote
  | Packet.copyAck _ => RPCCode.kCopyAck
  | Packet.shutdown => RPCCode.kShutdown
  | Packet.syscall _ _ => RPCCode.kGetGlobalFunc
  | Packet.streamSync _ _ => RPCCode.kDevStreamSync

/-- `Read(RPCCode*)`: consume the 4-byte opcode and log it. -/
def readCode (h : Handler) (c : RPCCode) : Handler :=
  let h1 := consumeBytes h 4
  { h1 with opcodesRead := h1.opcodesRead ++ [c] }

/-- `HandleProcessPacket`: read the opcode and dispatch. -/
def handleProcessPacket (h : Handler) (p : Packet) : Handler :=
  let h1 := readCode h (packetCode p)
  match p with
  | Packet.initServer ver args ctor => handleInitServer h1 ver args ctor
  | Packet.callFunc args => handleNormalCallFunc h1 args
  | Packet.retPacket args => handleReturn h1 false args
  | Packet.excPacket args => handleReturn h1 true args
  | Packet.copyFromRemote arr n => handleCopyFromRemote h1 arr n
  | Packet.copyToRemote arr n => handleCopyToRemote h1 arr n
  | Packet.copyAck _ => switchToState h1 State.kCopyAckReceived
  | Packet.shutdown => switchToState h1 State.kShutdownReceived
  | Packet.syscall args ok => handleSyscall h1 args ok
  | Packet.streamSync args ok => handleSyscallStreamSync h1 args ok

/-- Completion of the pending asynchronous serving-session operation: write
the reply (`CopyAck` data, packed values, void, or the exception) and
switch back to `kRecvPacketNumBytes`. -/
def handleAsyncDone (h : Handler) (ok : Bool) (errMsg : List Char) : Handler :=
  match h.waiting with
  | none => h
  | some w =>
      let h1 : Handler := { h with waiting := none }
      if ok then
        match w with
        | WaitKind.callFunc => switchToState (returnPackedSeq h1) State.kRecvPacketNumBytes
        | WaitKind.copyFromRemote n => fcopyack h1 none n
        | WaitKind.copyToRemote => switchToState (returnVoid h1) State.kRecvPacketNumBytes
        | WaitKind.streamSync => switchToState (returnVoid h1) State.kRecvPacketNumBytes
      else
        switchToState (returnException h1 errMsg) State.kRecvPacketNumBytes

/-- An external event driving the handler: a zero-length frame (a length
prefix of 0), a well-formed frame, the client-supplied key material of the
init-header handshake, the completion of an async operation, or the
client-side `ReadArray` + `FinishCopyAck` that drains a received
`CopyAck`. Whole frames are the right granularity: `HandleNextEvent` only
processes a state once all its pending bytes are available, so partial
channel deliveries perform the same reads and `SwitchToState` calls. -/
inductive Ev
  | zeroFrame
  | frame (p : Packet)
  | keyHeader (key : List Char)
  | asyncDone (ok : Bool) (errMsg : List Char)
  | finishCopyAck

/-- One observable step of the endpoint: `HandleNextEvent` driven with the
bytes of one frame, one async completion, or the `CopyAck` drain. Events
that the current state cannot consume leave the handler unchanged (the
drive loop simply does not deliver them there), and a dead endpoint
(`raised` set) no longer steps. -/
def step (h : Handler) (ev : Ev) : Handler :=
  if h.raised ≠ none then h else
  match ev with
  | Ev.zeroFrame =>
      if h.state = State.kRecvPacketNumBytes then
        switchToState (consumeBytes h 8) State.kRecvPacketNumBytes
      else h
  | Ev.frame p =>
      if h.state = State.kRecvPacketNumBytes then
        let h1 := consumeBytes h 8
        let h2 := switchToState h1 State.kProcessPacket
        let h3 := requestBytes h2 (4 + payloadBytes p)
        let h4 := handleProcessPacket h3 p
        -- the while loop drains kReturnReceived back to idle and reports
        -- the kReturn status
        if h4.state = State.kReturnReceived then
          switchToState h4 State.kRecvPacketNumBytes
        else h4
      else h
  | Ev.keyHeader key =>
      if h.state = State.kInitHeader then
        -- HandleInitHeader step 0: read the i32 length, request that many
        -- bytes; step 1 once they arrive: read them into the remote key
        let h1 := consumeBytes h 4
        let h2 := requestBytes h1 key.length
        let h3 := consumeBytes h2 key.length
        let h4 : Handler := { h3 with remoteKey := key, initHeaderStep := 1 }
        switchToState h4 State.kRecvPacketNumBytes
      else h
  | Ev.asyncDone ok msg =>
      if h.state = State.kWaitForAsyncCallback then handleAsyncDone h ok msg else h
  | Ev.finishCopyAck =>
      if h.state = State.kCopyAckReceived then
        -- the client-side drive loop reads the CopyAck payload (its own
        -- requested nbytes, which a conforming peer's ack carries exactly)
        -- and calls FinishCopyAck
        switchToState (consumeBytes h h.pending) State.kRecvPacketNumBytes
      else h

/-- Run the endpoint over a sequence of events. -/
def run (h : Handler) : List Ev → Handler
  | [] => h
  | ev :: evs => run (step h ev) evs

/-! ## The SwitchToState invariant -/

/-- The property tested by the `ICHECK_EQ` in `SwitchToState`: any
transition whose destination is not `kCopyAckReceived` happens with
`pending_request_bytes_ == 0`. -/
def goodCall (c : SwitchCall) : Prop :=
  c.dest = State.kCopyAckReceived ∨ c.pendingAt = 0

instance (c : SwitchCall) : Decidable (goodCall c) := by
  unfold goodCall; infer_instance

/-- The pending-byte accounting tied to each resting state of the
machine. -/
def pendingInv (h : Handler) : Prop :=
  match h.state with
  | State.kInitHeader => h.pending = 4
  | State.kRecvPacketNumBytes => h.pending = 8
  | State.kProcessPacket => True
  | State.kWaitForAsyncCallback => h.pending = 0
  | State.kReturnReceived => h.pending = 0
  | State.kCopyAckReceived => True
  | State.kShutdownReceived => h.pending = 0

/-- The reachability invariant: every logged `SwitchToState` call satisfies
the assertion, and (while the endpoint is alive) the pending bytes agree
with the state. -/
def Inv (h : Handler) : Prop :=
  (∀ c ∈ h.switchLog, goodCall c) ∧ (h.raised = none → pendingInv h)

@[simp] lemma switchToState_state (h : Handler) (s : State) :
    (switchToState h s).state = s := by
  unfold switchToState requestBytes; split <;> rfl

@[simp] lemma switchToState_pending (h : Handler) (s : State) :
    (switchToState h s).pending =
      if s = State.kRecvPacketNumBytes then h.pending + 8 else h.pending := by
  unfold switchToState requestBytes; split <;> simp_all

@[simp] lemma switchToState_switchLog (h : Handler) (s : State) :
    (switchToState h s).switchLog = h.switchLog ++ [⟨s, h.pending⟩] := by
  unfold switchToState requestBytes; split <;> rfl

@[simp] lemma switchToState_raised (h : Handler) (s : State) :
    (switchToState h s).raised = h.raised := by
  unfold switchToState requestBytes; split <;> rfl

@[simp] lemma switchToState_sessionLocal (h : Handler) (s : State) :
    (switchToState h s).sessionLocal = h.sessionLocal := by
  unfold switchToState requestBytes; split <;> rfl

@[simp] lemma switchToState_sent (h : Handler) (s : State) :
    (switchToState h s).sent = h.sent := by
  unfold switchToState requestBytes; split <;> rfl

@[simp] lemma switchToState_waiting (h : Handler) (s : State) :
    (switchToState h s).waiting = h.waiting := by
  unfold switchToState requestBytes; split <;> rfl

@[simp] lemma switchToState_arenaAllocs (h : Handler) (s : State) :
    (switchToState h s).arenaAllocs = h.arenaAllocs := by
  unfold switchToState requestBytes; split <;> rfl

@[simp] lemma switchToState_remoteKey (h : Handler) (s : State) :
    (switchToState h s).remoteKey = h.remoteKey := by
  unfold switchToState requestBytes; split <;> rfl

@[simp] lemma switchToState_opcodesRead (h : Handler) (s : State) :
    (switchToState h s).opcodesRead = h.opcodesRead := by
  unfold switchToState requestBytes; split <;> rfl

@[simp] lemma switchToState_protocolVer (h : Handler) (s : State) :
    (switchToState h s).protocolVer = h.protocolVer := by
  unfold switchToState requestBytes; split <;> rfl

lemma inv_switchToState_recv (h : Handler)
    (hlog : ∀ c ∈ h.switchLog, goodCall c) (hp : h.pending = 0) :
    Inv (switchToState h State.kRecvPacketNumBytes) ∧
      (switchToState h State.kRecvPacketNumBytes).state = State.kRecvPacketNumBytes := by
  refine ⟨⟨?_, ?_⟩, by simp⟩
  · intro c hc
    rcases (by simpa using hc : c ∈ h.switchLog ∨ c = ⟨State.kRecvPacketNumBytes, h.pending⟩) with
      hc' | hc'
    · exact hlog c hc'
    · subst hc'; exact Or.inr hp
  · intro _
    simp [pendingInv, hp]

lemma inv_switchToState_wait (h : Handler)
    (hlog : ∀ c ∈ h.switchLog, goodCall c) (hp : h.pending = 0) :
    Inv (switchToState h State.kWaitForAsyncCallback) ∧
      (switchToState h State.kWaitForAsyncCallback).state = State.kWaitForAsyncCallback := by
  refine ⟨⟨?_, ?_⟩, by simp⟩
  · intro c hc
    rcases (by simpa using hc : c ∈ h.switchLog ∨ c = ⟨State.kWaitForAsyncCallback, h.pending⟩) with
      hc' | hc'
    · exact hlog c hc'
    · subst hc'; exact Or.inr hp
  · intro _
    simp [pendingInv, hp]

lemma handleReturn_ret_spec (h : Handler) (args : List RPCArg)
    (hp : h.pending = packedSeqWireBytes args) :
    (handleReturn h false args).state = State.kReturnReceived ∧
      (handleReturn h false args).pending = 0 ∧
      (handleReturn h false args).switchLog
        = h.switchLog ++ [⟨State.kReturnReceived, 0⟩] ∧
      (handleReturn h false args).raised = h.raised := by
  unfold handleReturn consumeBytes
  simp [hp]

lemma forall_mem_append_singleton {l : List SwitchCall} {x : SwitchCall}
    (hl : ∀ c ∈ l, goodCall c) (hx : goodCall x) :
    ∀ c ∈ l ++ [x], goodCall c := by
  intro c hc
  rcases List.mem_append.mp hc with h1 | h1
  · exact hl c h1
  · rw [List.mem_singleton] at h1
    subst h1
    exact hx

lemma handleReturn_exc_inv (h : Handler) (args : List RPCArg)
    (hlog : ∀ c ∈ h.switchLog, goodCall c)
    (hp : h.pending = packedSeqWireBytes args) :
    Inv (handleReturn h true args) ∧
      (handleReturn h true args).state ≠ State.kReturnReceived := by
  unfold handleReturn raiseFatal consumeBytes
  rcases hx : argFirstString args with _ | msg
  all_goals refine ⟨⟨?_, ?_⟩, by simp [hx]⟩
  all_goals first
    | (intro hr
       exact absurd hr (by simp [hx]))
    | (intro c hc
       simp [hx] at hc
       rcases hc with hc | hc
       · exact hlog c hc
       · subst hc
         simp [goodCall]
         omega)


lemma handleInitServer_fields (h : Handler) (ver : List Char) (args : List RPCArg)
    (ctor : Option Bool) :
    (handleInitServer h ver args ctor).state = State.kRecvPacketNumBytes ∧
      (handleInitServer h ver args ctor).pending
        = (h.pending - 8 - ver.length - packedSeqWireBytes args) + 8 ∧
      (handleInitServer h ver args ctor).switchLog
        = h.switchLog ++ [⟨State.kRecvPacketNumBytes,
            h.pending - 8 - ver.length - packedSeqWireBytes args⟩] ∧
      (handleInitServer h ver args ctor).raised = h.raised := by
  unfold handleInitServer consumeBytes returnException returnVoid
  rcases args with _ | ⟨a, rest⟩ <;> rcases ctor with _ | b <;>
    by_cases h1 : h.sessionLocal = none <;>
    by_cases h2 : ver = h.protocolVer <;>
    simp [h1, h2]

lemma handleInitServer_inv (h : Handler) (ver : List Char) (args : List RPCArg)
    (ctor : Option Bool)
    (hlog : ∀ c ∈ h.switchLog, goodCall c)
    (hp : h.pending = 8 + ver.length + packedSeqWireBytes args) :
    Inv (handleInitServer h ver args ctor) ∧
      (handleInitServer h ver args ctor).state = State.kRecvPacketNumBytes := by
  obtain ⟨hs, hpd, hl, hr⟩ := handleInitServer_fields h ver args ctor
  refine ⟨⟨?_, ?_⟩, hs⟩
  · rw [hl]
    exact forall_mem_append_singleton hlog (Or.inr (by simp; omega))
  · intro _
    simp only [pendingInv, hs, hpd]
    omega

lemma handleNormalCallFunc_inv (h : Handler) (args : List RPCArg)
    (hlog : ∀ c ∈ h.switchLog, goodCall c)
    (hp : h.pending = 8 + packedSeqWireBytes args) :
    Inv (handleNormalCallFunc h args) ∧
      (handleNormalCallFunc h args).state ≠ State.kReturnReceived := by
  unfold handleNormalCallFunc raiseFatal consumeBytes
  rcases hsess : h.sessionLocal with _ | isLocal
  · refine ⟨⟨?_, ?_⟩, ?_⟩
    · intro c hc
      simp [hsess] at hc
      rcases hc with hc | hc
      · exact hlog c hc
      · subst hc
        simp [goodCall]
        omega
    · intro hr
      simp [hsess] at hr
    · simp [hsess]
  · refine ⟨⟨?_, ?_⟩, ?_⟩
    · intro c hc
      simp [hsess] at hc
      rcases hc with hc | hc
      · exact hlog c hc
      · subst hc
        simp [goodCall]
        omega
    · intro hr
      simp [pendingInv, hsess]
      omega
    · simp [hsess]

lemma handleSyscall_fields (h : Handler) (args : List RPCArg) (opOk : Bool) :
    (handleSyscall h args opOk).state = State.kRecvPacketNumBytes ∧
      (handleSyscall h args opOk).pending
        = (h.pending - packedSeqWireBytes args) + 8 ∧
      (handleSyscall h args opOk).switchLog
        = h.switchLog ++ [⟨State.kRecvPacketNumBytes,
            h.pending - packedSeqWireBytes args⟩] ∧
      (handleSyscall h args opOk).raised = h.raised := by
  unfold handleSyscall consumeBytes returnException returnPackedSeq
  cases opOk <;> by_cases h1 : h.sessionLocal = none <;> simp [h1]

lemma handleSyscall_inv (h : Handler) (args : List RPCArg) (opOk : Bool)
    (hlog : ∀ c ∈ h.switchLog, goodCall c)
    (hp : h.pending = packedSeqWireBytes args) :
    Inv (handleSyscall h args opOk) ∧
      (handleSyscall h args opOk).state = State.kRecvPacketNumBytes := by
  obtain ⟨hs, hpd, hl, hr⟩ := handleSyscall_fields h args opOk
  refine ⟨⟨?_, ?_⟩, hs⟩
  · rw [hl]
    exact forall_mem_append_singleton hlog (Or.inr (by simp; omega))
  · intro _
    simp only [pendingInv, hs, hpd]
    omega

lemma handleSyscallStreamSync_inv (h : Handler) (args : List RPCArg) (argsOk : Bool)
    (hlog : ∀ c ∈ h.switchLog, goodCall c)
    (hp : h.pending = packedSeqWireBytes args) :
    Inv (handleSyscallStreamSync h args argsOk) ∧
      (handleSyscallStreamSync h args argsOk).state ≠ State.kReturnReceived := by
  unfold handleSyscallStreamSync returnException consumeBytes
  cases argsOk with
  | false =>
    refine ⟨⟨?_, ?_⟩, ?_⟩
    · intro c hc
      simp at hc
      rcases hc with hc | hc
      · exact hlog c hc
      · subst hc
        simp [goodCall]
        omega
    · intro hr
      simp [pendingInv]
      omega
    · simp
  | true =>
    rcases hsess : h.sessionLocal with _ | isLocal
    · refine ⟨⟨?_, ?_⟩, ?_⟩
      · intro c hc
        simp [hsess] at hc
        rcases hc with hc | hc | hc
        · exact hlog c hc
        · subst hc
          simp [goodCall]
          omega
        · subst hc
          simp [goodCall]
          omega
      · intro hr
        simp [pendingInv, hsess]
        omega
      · simp [hsess]
    · refine ⟨⟨?_, ?_⟩, ?_⟩
      · intro c hc
        simp [hsess] at hc
        rcases hc with hc | hc
        · exact hlog c hc
        · subst hc
          simp [goodCall]
          omega
      · intro hr
        simp [pendingInv, hsess]
        omega
      · simp [hsess]

lemma handleCopyFromRemote_inv (h : Handler) (arr : TensorDesc) (dataBytes : Nat)
    (hlog : ∀ c ∈ h.switchLog, goodCall c)
    (hst : h.state = State.kProcessPacket)
    (hp : h.pending = tensorWireBytes arr.ndim + 8) :
    Inv (handleCopyFromRemote h arr dataBytes) ∧
      (handleCopyFromRemote h arr dataBytes).state ≠ State.kReturnReceived := by
  unfold handleCopyFromRemote raiseFatal fcopyack consumeBytes
  rcases hsess : h.sessionLocal with _ | isLocal
  · refine ⟨⟨?_, ?_⟩, ?_⟩
    · intro c hc
      simp [hsess] at hc
      exact hlog c hc
    · intro hr
      simp [hsess] at hr
    · simp [hsess, hst]
  · by_cases hcpu : (arr.deviceIsCPU && isLocal && dmlcIoNoEndianSwap) = true
    · refine ⟨⟨?_, ?_⟩, ?_⟩
      · intro c hc
        simp [hsess, hcpu] at hc
        rcases hc with hc | hc
        · exact hlog c hc
        · subst hc
          simp [goodCall]
          omega
      · intro hr
        simp [pendingInv, hsess, hcpu]
        omega
      · simp [hsess, hcpu]
    · refine ⟨⟨?_, ?_⟩, ?_⟩
      · intro c hc
        simp [hsess, hcpu] at hc
        rcases hc with hc | hc
        · exact hlog c hc
        · subst hc
          simp [goodCall]
          omega
      · intro hr
        simp [pendingInv, hsess, hcpu]
        omega
      · simp [hsess, hcpu]

lemma handleCopyToRemote_inv (h : Handler) (arr : TensorDesc) (dataBytes : Nat)
    (hlog : ∀ c ∈ h.switchLog, goodCall c)
    (hst : h.state = State.kProcessPacket)
    (hp : h.pending = tensorWireBytes arr.ndim + 8 + dataBytes) :
    Inv (handleCopyToRemote h arr dataBytes) ∧
      (handleCopyToRemote h arr dataBytes).state ≠ State.kReturnReceived := by
  unfold handleCopyToRemote raiseFatal returnVoid consumeBytes
  rcases hsess : h.sessionLocal with _ | isLocal
  · refine ⟨⟨?_, ?_⟩, ?_⟩
    · intro c hc
      simp [hsess] at hc
      exact hlog c hc
    · intro hr
      simp [hsess] at hr
    · simp [hsess, hst]
  · by_cases hcpu : (arr.deviceIsCPU && isLocal) = true
    · refine ⟨⟨?_, ?_⟩, ?_⟩
      · intro c hc
        simp [hsess, hcpu] at hc
        rcases hc with hc | hc
        · exact hlog c hc
        · subst hc
          simp [goodCall]
          omega
      · intro hr
        simp [pendingInv, hsess, hcpu]
        omega
      · simp [hsess, hcpu]
    · refine ⟨⟨?_, ?_⟩, ?_⟩
      · intro c hc
        simp [hsess, hcpu] at hc
        rcases hc with hc | hc
        · exact hlog c hc
        · subst hc
          simp [goodCall]
          omega
      · intro hr
        simp [pendingInv, hsess, hcpu]
        omega
      · simp [hsess, hcpu]

lemma handleAsyncDone_inv (h : Handler) (ok : Bool) (errMsg : List Char)
    (hlog : ∀ c ∈ h.switchLog, goodCall c)
    (hst : h.state = State.kWaitForAsyncCallback)
    (hp : h.pending = 0) :
    Inv (handleAsyncDone h ok errMsg) := by
  unfold handleAsyncDone fcopyack returnPackedSeq returnVoid returnException
  rcases hw : h.waiting with _ | w
  · refine ⟨?_, ?_⟩
    · intro c hc
      simp [hw] at hc
      exact hlog c hc
    · intro _
      simp [pendingInv, hw, hst, hp]
  · cases ok <;> cases w
    all_goals
      refine ⟨?_, ?_⟩
    all_goals first
      | (intro c hc
         simp [hw] at hc
         rcases hc with hc | hc
         · exact hlog c hc
         · subst hc
           simp [goodCall]
           omega)
      | (intro hr
         simp [pendingInv, hw, hp]
         done)

lemma step_dead (h : Handler) (ev : Ev) (hr : h.raised ≠ none) : step h ev = h := by
  unfold step
  rw [if_pos hr]

lemma step_noop (h : Handler) (ev : Ev) (hI : Inv h) (he : step h ev = h) :
    Inv (step h ev) := by rw [he]; exact hI

lemma step_inv (h : Handler) (ev : Ev) (hI : Inv h) : Inv (step h ev) := by
  obtain ⟨hlog, hpend⟩ := hI
  by_cases hraised : h.raised = none
  case neg =>
    rw [step_dead h ev hraised]
    exact ⟨hlog, hpend⟩
  case pos =>
  cases ev with
  | zeroFrame =>
    by_cases hst : h.state = State.kRecvPacketNumBytes
    case neg =>
      rw [show step h Ev.zeroFrame = h by simp [step, hraised, hst]]
      exact ⟨hlog, hpend⟩
    case pos =>
      have hp8 : h.pending = 8 := by
        have hx := hpend hraised
        simp only [pendingInv, hst] at hx
        exact hx
      rw [show step h Ev.zeroFrame
            = switchToState (consumeBytes h 8) State.kRecvPacketNumBytes by
          simp [step, hraised, hst]]
      exact (inv_switchToState_recv _ (by simpa [consumeBytes] using hlog)
        (by simp [consumeBytes]; omega)).1
  | keyHeader key =>
    by_cases hst : h.state = State.kInitHeader
    case neg =>
      rw [show step h (Ev.keyHeader key) = h by simp [step, hraised, hst]]
      exact ⟨hlog, hpend⟩
    case pos =>
      have hp4 : h.pending = 4 := by
        have hx := hpend hraised
        simp only [pendingInv, hst] at hx
        exact hx
      rw [show step h (Ev.keyHeader key)
            = switchToState
                { consumeBytes (requestBytes (consumeBytes h 4) key.length) key.length with
                  remoteKey := key, initHeaderStep := 1 }
                State.kRecvPacketNumBytes by
          simp [step, hraised, hst]]
      exact (inv_switchToState_recv _ (by simpa [consumeBytes, requestBytes] using hlog)
        (by simp [consumeBytes, requestBytes]; omega)).1
  | asyncDone ok msg =>
    by_cases hst : h.state = State.kWaitForAsyncCallback
    case neg =>
      rw [show step h (Ev.asyncDone ok msg) = h by simp [step, hraised, hst]]
      exact ⟨hlog, hpend⟩
    case pos =>
      have hp0 : h.pending = 0 := by
        have hx := hpend hraised
        simp only [pendingInv, hst] at hx
        exact hx
      rw [show step h (Ev.asyncDone ok msg) = handleAsyncDone h ok msg by
          simp [step, hraised, hst]]
      exact handleAsyncDone_inv h ok msg hlog hst hp0
  | finishCopyAck =>
    by_cases hst : h.state = State.kCopyAckReceived
    case neg =>
      rw [show step h Ev.finishCopyAck = h by simp [step, hraised, hst]]
      exact ⟨hlog, hpend⟩
    case pos =>
      rw [show step h Ev.finishCopyAck
            = switchToState (consumeBytes h h.pending) State.kRecvPacketNumBytes by
          simp [step, hraised, hst]]
      exact (inv_switchToState_recv _ (by simpa [consumeBytes] using hlog)
        (by simp [consumeBytes])).1
  | frame p =>
    by_cases hst : h.state = State.kRecvPacketNumBytes
    case neg =>
      rw [show step h (Ev.frame p) = h by simp [step, hraised, hst]]
      exact ⟨hlog, hpend⟩
    case pos =>
    have hp8 : h.pending = 8 := by
      have hx := hpend hraised
      simp only [pendingInv, hst] at hx
      exact hx
    rw [show step h (Ev.frame p)
          = (if (handleProcessPacket
                  (requestBytes (switchToState (consumeBytes h 8) State.kProcessPacket)
                    (4 + payloadBytes p)) p).state = State.kReturnReceived then
              switchToState
                (handleProcessPacket
                  (requestBytes (switchToState (consumeBytes h 8) State.kProcessPacket)
                    (4 + payloadBytes p)) p) State.kRecvPacketNumBytes
            else
              handleProcessPacket
                (requestBytes (switchToState (consumeBytes h 8) State.kProcessPacket)
                  (4 + payloadBytes p)) p) by
        simp [step, hraised, hst]]
    have hlogR : ∀ c ∈ (readCode
        (requestBytes (switchToState (consumeBytes h 8) State.kProcessPacket)
          (4 + payloadBytes p)) (packetCode p)).switchLog, goodCall c := by
      intro c hc
      simp [readCode, requestBytes, consumeBytes] at hc
      rcases hc with hc | hc
      · exact hlog c hc
      · subst hc
        simp [goodCall]
        omega
    have hpR : (readCode
        (requestBytes (switchToState (consumeBytes h 8) State.kProcessPacket)
          (4 + payloadBytes p)) (packetCode p)).pending = payloadBytes p := by
      simp [readCode, requestBytes, consumeBytes]
      omega
    have hstR : (readCode
        (requestBytes (switchToState (consumeBytes h 8) State.kProcessPacket)
          (4 + payloadBytes p)) (packetCode p)).state = State.kProcessPacket := by
      simp [readCode, requestBytes, consumeBytes]
    cases p with
    | initServer ver args ctor =>
      simp only [handleProcessPacket]
      obtain ⟨hInv4, hs4⟩ := handleInitServer_inv _ ver args ctor hlogR
        (by rw [hpR]; rfl)
      rw [if_neg (by simp [hs4])]
      exact hInv4
    | callFunc args =>
      simp only [handleProcessPacket]
      obtain ⟨hInv4, hs4⟩ := handleNormalCallFunc_inv _ args hlogR
        (by rw [hpR]; rfl)
      rw [if_neg hs4]
      exact hInv4
    | retPacket args =>
      simp only [handleProcessPacket]
      obtain ⟨hs4, hp4, hl4, hr4⟩ := handleReturn_ret_spec _ args (by rw [hpR]; rfl)
      rw [if_pos hs4]
      refine (inv_switchToState_recv _ ?_ hp4).1
      rw [hl4]
      exact forall_mem_append_singleton hlogR (Or.inr rfl)
    | excPacket args =>
      simp only [handleProcessPacket]
      obtain ⟨hInv4, hs4⟩ := handleReturn_exc_inv _ args hlogR (by rw [hpR]; rfl)
      rw [if_neg hs4]
      exact hInv4
    | copyFromRemote arr dataBytes =>
      simp only [handleProcessPacket]
      obtain ⟨hInv4, hs4⟩ := handleCopyFromRemote_inv _ arr dataBytes hlogR hstR
        (by rw [hpR]; rfl)
      rw [if_neg hs4]
      exact hInv4
    | copyToRemote arr dataBytes =>
      simp only [handleProcessPacket]
      obtain ⟨hInv4, hs4⟩ := handleCopyToRemote_inv _ arr dataBytes hlogR hstR
        (by rw [hpR]; rfl)
      rw [if_neg hs4]
      exact hInv4
    | copyAck dataBytes =>
      simp only [handleProcessPacket]
      rw [if_neg (by simp)]
      refine ⟨?_, ?_⟩
      · intro c hc
        simp [readCode, requestBytes, consumeBytes] at hc
        rcases hc with hc | hc | hc
        · exact hlog c hc
        · subst hc
          simp [goodCall]
          omega
        · subst hc
          simp [goodCall]
      · intro _
        simp [pendingInv]
    | shutdown =>
      simp only [handleProcessPacket]
      rw [if_neg (by simp)]
      refine ⟨?_, ?_⟩
      · intro c hc
        simp [readCode, requestBytes, consumeBytes, payloadBytes] at hc
        rcases hc with hc | hc | hc
        · exact hlog c hc
        · subst hc
          simp [goodCall]
          omega
        · subst hc
          simp [goodCall]
          omega
      · intro _
        simp [pendingInv, payloadBytes, readCode, requestBytes, consumeBytes]
        omega
    | syscall args opOk =>
      simp only [handleProcessPacket]
      obtain ⟨hInv4, hs4⟩ := handleSyscall_inv _ args opOk hlogR (by rw [hpR]; rfl)
      rw [if_neg (by simp [hs4])]
      exact hInv4
    | streamSync args argsOk =>
      simp only [handleProcessPacket]
      obtain ⟨hInv4, hs4⟩ := handleSyscallStreamSync_inv _ args argsOk hlogR
        (by rw [hpR]; rfl)
      rw [if_neg hs4]
      exact hInv4

lemma run_inv (h : Handler) (evs : List Ev) (hI : Inv h) : Inv (run h evs) := by
  induction evs generalizing h with
  | nil => exact hI
  | cons ev evs ih => exact ih _ (step_inv h ev hI)

lemma initHandler_inv (key ver : List Char) : Inv (initHandler key ver) := by
  unfold initHandler
  split
  · exact ⟨by simp, by intro _; simp [pendingInv]⟩
  · exact ⟨by simp, by intro _; simp [pendingInv]⟩

/-! ## The drive loop's channel-closure decision

`RPCEndpoint::HandleUntilReturnEvent`: when the handler still needs bytes
and the channel delivers none, the loop either reports `kShutdown` (clean
boundary) or fails fatally. -/

/-- The fatal transport error of the drive loop
(`LOG(FATAL) << "Channel closes before we get needed bytes"`). -/
inductive DriveFatal
  | channelClosedBeforeNeededBytes
deriving DecidableEq

/-- `BytesNeeded()`: how many more bytes the reader must receive before the
handler can progress. -/
def bytesNeeded (pending readerAvail : Nat) : Nat :=
  if readerAvail < pending then pending - readerAvail else 0

/-- The decision taken by `HandleUntilReturnEvent` when `Recv` returns 0
bytes while `bytes_needed != 0`: return the `kShutdown` event iff the
handler can shut down cleanly, otherwise raise the fatal transport error. -/
def onZeroRecv (h : Handler) : Except DriveFatal RPCCode :=
  if canCleanShutdown h then Except.ok RPCCode.kShutdown
  else Except.error DriveFatal.channelClosedBeforeNeededBytes

/-! ## Chunked transfers of the client session adapter -/

/-- `RemoteCopyCalculatePacketOverheadSize`: opcode + data pointer +
device + ndim + dtype + byte_offset + shape + nbytes field. -/
def RemoteCopyCalculatePacketOverheadSize (ndim : Nat) : Nat :=
  let shape_bytes := ndim * 8
  4 + 8 + 8 + 4 + 4 + 8 + shape_bytes + 8

/-- `RPCClientSession::CopyToRemote`: split `nbytes` into full blocks of
`rpc_max_size - overhead` bytes plus a remainder, issuing one endpoint
transfer per block with `byte_offset = block_count * block_size`. The
result lists the `(byte_offset, nbytes)` of each endpoint call, in order. -/
def clientCopyToRemote (nbytes rpcMaxSize ndim : Nat) : List (Nat × Nat) :=
  let overhead := RemoteCopyCalculatePacketOverheadSize ndim
  let block_size := rpcMaxSize - overhead
  let num_blocks := nbytes / block_size
  let full := (List.range num_blocks).map fun k => (k * block_size, block_size)
  let remainder_bytes := nbytes % block_size
  if remainder_bytes ≠ 0 then full ++ [(num_blocks * block_size, remainder_bytes)]
  else full

/-- `RPCClientSession::CopyFromRemote`: the same chunking as
`CopyToRemote`, driving `RPCEndpoint::CopyFromRemote` per block. -/
def clientCopyFromRemote (nbytes rpcMaxSize ndim : Nat) : List (Nat × Nat) :=
  let overhead := RemoteCopyCalculatePacketOverheadSize ndim
  let block_size := rpcMaxSize - overhead
  let num_blocks := nbytes / block_size
  let full := (List.range num_blocks).map fun k => (k * block_size, block_size)
  let remainder_bytes := nbytes % block_size
  if remainder_bytes ≠ 0 then full ++ [(num_blocks * block_size, remainder_bytes)]
  else full

lemma clientCopyFromRemote_eq_to (nbytes rpcMaxSize ndim : Nat) :
    clientCopyFromRemote nbytes rpcMaxSize ndim
      = clientCopyToRemote nbytes rpcMaxSize ndim := rfl

lemma ceilDiv_eq_div_add_ite (n bs : Nat) (hbs : 0 < bs) :
    (n + bs - 1) / bs = n / bs + (if n % bs = 0 then 0 else 1) := by
  have hdm := Nat.div_add_mod n bs
  have hr : n % bs < bs := Nat.mod_lt _ hbs
  by_cases h0 : n % bs = 0
  · rw [if_pos h0]
    have he : n + bs - 1 = bs * (n / bs) + (bs - 1) := by omega
    rw [he, Nat.mul_add_div hbs]
    have h1 : (bs - 1) / bs = 0 := Nat.div_eq_of_lt (by omega)
    omega
  · rw [if_neg h0]
    have he : n + bs - 1 = bs * (n / bs) + (n % bs - 1 + bs) := by omega
    rw [he, Nat.mul_add_div hbs]
    have h1 : (n % bs - 1 + bs) / bs = (n % bs - 1) / bs + 1 := Nat.add_div_right _ hbs
    have h2 : (n % bs - 1) / bs = 0 := Nat.div_eq_of_lt (by omega)
    omega

lemma clientCopyToRemote_normal (nbytes rpcMaxSize ndim : Nat) :
    clientCopyToRemote nbytes rpcMaxSize ndim
      = (List.range (nbytes / (rpcMaxSize - RemoteCopyCalculatePacketOverheadSize ndim))).map
          (fun j => (j * (rpcMaxSize - RemoteCopyCalculatePacketOverheadSize ndim),
            rpcMaxSize - RemoteCopyCalculatePacketOverheadSize ndim))
        ++ (if nbytes % (rpcMaxSize - RemoteCopyCalculatePacketOverheadSize ndim) ≠ 0 then
              [((nbytes / (rpcMaxSize - RemoteCopyCalculatePacketOverheadSize ndim))
                  * (rpcMaxSize - RemoteCopyCalculatePacketOverheadSize ndim),
                nbytes % (rpcMaxSize - RemoteCopyCalculatePacketOverheadSize ndim))]
            else []) := by
  simp only [clientCopyToRemote]
  split <;> simp_all

lemma clientCopyToRemote_length (nbytes rpcMaxSize ndim : Nat)
    (hov : RemoteCopyCalculatePacketOverheadSize ndim < rpcMaxSize) :
    (clientCopyToRemote nbytes rpcMaxSize ndim).length
      = (nbytes + (rpcMaxSize - RemoteCopyCalculatePacketOverheadSize ndim) - 1)
          / (rpcMaxSize - RemoteCopyCalculatePacketOverheadSize ndim) := by
  have hbs : 0 < rpcMaxSize - RemoteCopyCalculatePacketOverheadSize ndim := by omega
  rw [ceilDiv_eq_div_add_ite _ _ hbs, clientCopyToRemote_normal]
  by_cases hrem : nbytes % (rpcMaxSize - RemoteCopyCalculatePacketOverheadSize ndim) = 0 <;>
    simp [hrem]

lemma chunk_get (bs nb rem k : Nat)
    (L : List (Nat × Nat))
    (hL : L = (List.range nb).map (fun j => (j * bs, bs))
        ++ (if rem ≠ 0 then [(nb * bs, rem)] else []))
    (hk : k < L.length) :
    (L.get ⟨k, hk⟩).1 = k * bs := by
  subst hL
  rw [List.get_eq_getElem]
  rcases Nat.lt_or_ge k nb with hlt | hge
  · rw [List.getElem_append_left (by simpa using hlt)]
    simp
  · have hlen := hk
    by_cases hrem : rem = 0
    · simp [hrem] at hlen
      omega
    · simp [hrem] at hlen
      have hkeq : k = nb := by omega
      rw [List.getElem_append_right (by simpa using hge)]
      simp [hkeq, hrem]

lemma clientCopyToRemote_get (nbytes rpcMaxSize ndim k : Nat)
    (hk : k < (clientCopyToRemote nbytes rpcMaxSize ndim).length) :
    ((clientCopyToRemote nbytes rpcMaxSize ndim).get ⟨k, hk⟩).1
      = k * (rpcMaxSize - RemoteCopyCalculatePacketOverheadSize ndim) := by
  have hk2 : k < ((List.range (nbytes / (rpcMaxSize - RemoteCopyCalculatePacketOverheadSize ndim))).map
      (fun j => (j * (rpcMaxSize - RemoteCopyCalculatePacketOverheadSize ndim),
        rpcMaxSize - RemoteCopyCalculatePacketOverheadSize ndim))
      ++ (if nbytes % (rpcMaxSize - RemoteCopyCalculatePacketOverheadSize ndim) ≠ 0 then
            [((nbytes / (rpcMaxSize - RemoteCopyCalculatePacketOverheadSize ndim))
                * (rpcMaxSize - RemoteCopyCalculatePacketOverheadSize ndim),
              nbytes % (rpcMaxSize - RemoteCopyCalculatePacketOverheadSize ndim))]
          else [])).length := by
    rw [← clientCopyToRemote_normal]
    exact hk
  have hmain := chunk_get (rpcMaxSize - RemoteCopyCalculatePacketOverheadSize ndim)
    (nbytes / (rpcMaxSize - RemoteCopyCalculatePacketOverheadSize ndim))
    (nbytes % (rpcMaxSize - RemoteCopyCalculatePacketOverheadSize ndim)) k _ rfl hk2
  rw [List.get_eq_getElem] at hmain
  rw [List.get_eq_getElem]
  simp only [clientCopyToRemote_normal]
  exact hmain

/-! ## Claim theorems -/

/-- C1: encoding a remote-object handle with `WriteFFIAny` and decoding
with `ReadFFIAny` yields a remote object reference carrying the same 64-bit
handle, and the number of bytes written equals `GetFFIAnyProtocolBytes`
(the dry-run length). -/
theorem writeFFIAny_readFFIAny_roundtrip (handle : Nat) (rest : List Nat)
    (hh : handle < 18446744073709551616) :
    readFFIAny (writeFFIAny handle ++ rest)
        = some (FFIAnyValue.rpcObjectRef handle, rest) ∧
      (writeFFIAny handle).length = getFFIAnyProtocolBytes := by
  constructor
  · unfold readFFIAny writeFFIAny
    rw [List.append_assoc, readU32_u32le _ (by decide) _]
    simp [readU64_u64le _ hh rest]
  · simp [writeFFIAny, u32le, u64le, getFFIAnyProtocolBytes]

theorem writeFFIAny_readFFIAny_roundtrip_witness :
    (42 : Nat) < 18446744073709551616 ∧
      readFFIAny (writeFFIAny 42 ++ []) = some (FFIAnyValue.rpcObjectRef 42, []) ∧
      (writeFFIAny 42).length = getFFIAnyProtocolBytes :=
  ⟨by decide, writeFFIAny_readFFIAny_roundtrip 42 [] (by decide)⟩

/-- C2: when an Exception packet is received with a first string `m`,
`HandleReturn` switches back to the idle state `kRecvPacketNumBytes` and
then raises `m` locally, verbatim when it starts with
`"RPCSessionTimeoutError: "`, and wrapped with the RPC-error banner
otherwise. -/
theorem handleReturn_exception_spec (h : Handler) (args : List RPCArg)
    (m : List Char) (hm : argFirstString args = some m) :
    (handleReturn h true args).state = State.kRecvPacketNumBytes ∧
      (handleReturn h true args).raised
        = some (if startsWith m timeoutErrorMark then m
                else rpcErrorBanner ++ m) := by
  unfold handleReturn raiseFatal consumeBytes
  simp [hm]

theorem handleReturn_exception_spec_witness :
    argFirstString [RPCArg.strArg timeoutErrorMark] = some timeoutErrorMark ∧
      (handleReturn (initHandler [] []) true [RPCArg.strArg timeoutErrorMark]).state
        = State.kRecvPacketNumBytes ∧
      (handleReturn (initHandler [] []) true [RPCArg.strArg timeoutErrorMark]).raised
        = some (if startsWith timeoutErrorMark timeoutErrorMark then timeoutErrorMark
                else rpcErrorBanner ++ timeoutErrorMark) :=
  ⟨rfl, handleReturn_exception_spec (initHandler [] []) _ timeoutErrorMark rfl⟩

/-- C3: along every execution of the event handler (any remote key, any
compiled protocol version, any event sequence from a conforming peer),
every transition logged by `SwitchToState` whose destination is not
`kCopyAckReceived` happens with `pending_request_bytes_ = 0`: the assertion
in `SwitchToState` never fires. -/
theorem switchToState_assertion_invariant (key ver : List Char) (evs : List Ev)
    (c : SwitchCall) (hc : c ∈ (run (initHandler key ver) evs).switchLog) :
    c.dest = State.kCopyAckReceived ∨ c.pendingAt = 0 :=
  (run_inv _ evs (initHandler_inv key ver)).1 c hc

theorem switchToState_assertion_invariant_witness :
    (⟨State.kRecvPacketNumBytes, 0⟩ : SwitchCall)
        ∈ (run (initHandler [] []) [Ev.zeroFrame]).switchLog ∧
      ((⟨State.kRecvPacketNumBytes, 0⟩ : SwitchCall).dest = State.kCopyAckReceived ∨
        (⟨State.kRecvPacketNumBytes, 0⟩ : SwitchCall).pendingAt = 0) :=
  ⟨by decide,
    switchToState_assertion_invariant [] [] [Ev.zeroFrame]
      ⟨State.kRecvPacketNumBytes, 0⟩ (by decide)⟩

/-- C4: `CanCleanShutdown` returns true if and only if the handler's
current state is `kRecvPacketNumBytes`; in every other state it returns
false. -/
theorem canCleanShutdown_iff (h : Handler) :
    canCleanShutdown h = true ↔ h.state = State.kRecvPacketNumBytes := by
  simp [canCleanShutdown]

/-- C5: with a negotiated maximum packet size above the per-packet overhead
computed from the tensor descriptor, both chunked copies of the client
session adapter issue exactly `ceil(nbytes / (max - overhead))` transfers
(`floor(nbytes / block_size)` full blocks plus one remainder transfer when
`nbytes mod block_size` is nonzero), and the k-th transfer uses
`byte_offset = k * block_size`. -/
theorem clientCopy_chunking (nbytes rpcMaxSize ndim : Nat)
    (hov : RemoteCopyCalculatePacketOverheadSize ndim < rpcMaxSize) :
    ((clientCopyToRemote nbytes rpcMaxSize ndim).length
        = (nbytes + (rpcMaxSize - RemoteCopyCalculatePacketOverheadSize ndim) - 1)
            / (rpcMaxSize - RemoteCopyCalculatePacketOverheadSize ndim) ∧
      (clientCopyToRemote nbytes rpcMaxSize ndim).length
        = nbytes / (rpcMaxSize - RemoteCopyCalculatePacketOverheadSize ndim)
            + (if nbytes % (rpcMaxSize - RemoteCopyCalculatePacketOverheadSize ndim) = 0
               then 0 else 1) ∧
      ∀ k, (hk : k < (clientCopyToRemote nbytes rpcMaxSize ndim).length) →
        ((clientCopyToRemote nbytes rpcMaxSize ndim).get ⟨k, hk⟩).1
          = k * (rpcMaxSize - RemoteCopyCalculatePacketOverheadSize ndim)) ∧
    ((clientCopyFromRemote nbytes rpcMaxSize ndim).length
        = (nbytes + (rpcMaxSize - RemoteCopyCalculatePacketOverheadSize ndim) - 1)
            / (rpcMaxSize - RemoteCopyCalculatePacketOverheadSize ndim) ∧
      ∀ k, (hk : k < (clientCopyFromRemote nbytes rpcMaxSize ndim).length) →
        ((clientCopyFromRemote nbytes rpcMaxSize ndim).get ⟨k, hk⟩).1
          = k * (rpcMaxSize - RemoteCopyCalculatePacketOverheadSize ndim)) := by
  have hbs : 0 < rpcMaxSize - RemoteCopyCalculatePacketOverheadSize ndim := by omega
  refine ⟨⟨clientCopyToRemote_length nbytes rpcMaxSize ndim hov, ?_, ?_⟩, ?_, ?_⟩
  · rw [clientCopyToRemote_length nbytes rpcMaxSize ndim hov]
    exact ceilDiv_eq_div_add_ite _ _ hbs
  · intro k hk
    exact clientCopyToRemote_get nbytes rpcMaxSize ndim k hk
  · rw [clientCopyFromRemote_eq_to]
    exact clientCopyToRemote_length nbytes rpcMaxSize ndim hov
  · intro k hk
    have hk2 : k < (clientCopyToRemote nbytes rpcMaxSize ndim).length := hk
    exact clientCopyToRemote_get nbytes rpcMaxSize ndim k hk2

theorem clientCopy_chunking_witness :
    RemoteCopyCalculatePacketOverheadSize 1 < 62 ∧
      (clientCopyToRemote 25 62 1).length = (25 + (62 - RemoteCopyCalculatePacketOverheadSize 1) - 1)
          / (62 - RemoteCopyCalculatePacketOverheadSize 1) :=
  ⟨by decide, (clientCopy_chunking 25 62 1 (by decide)).1.1⟩

/-- C6: an `InitServer` packet whose protocol-version string differs from
the compiled constant is answered with an Exception packet (not a Return),
does not install a serving session, and leaves the handler back in the
idle state `kRecvPacketNumBytes` with no local error raised. -/
theorem handleInitServer_version_mismatch (h : Handler) (ver : List Char)
    (args : List RPCArg) (ctor : Option Bool)
    (hsess : h.sessionLocal = none) (hver : ver ≠ h.protocolVer) :
    (handleInitServer h ver args ctor).sent
        = h.sent ++ [WriteRec.excMsg protocolMismatchMsg] ∧
      (handleInitServer h ver args ctor).sessionLocal = none ∧
      (handleInitServer h ver args ctor).state = State.kRecvPacketNumBytes ∧
      (handleInitServer h ver args ctor).raised = h.raised := by
  unfold handleInitServer consumeBytes returnException
  simp [hsess, hver]

theorem handleInitServer_version_mismatch_witness :
    (initHandler [] ['1']).sessionLocal = none ∧
      (['0'] : List Char) ≠ (initHandler [] ['1']).protocolVer ∧
      (handleInitServer (initHandler [] ['1']) ['0'] [] none).sent
        = (initHandler [] ['1']).sent ++ [WriteRec.excMsg protocolMismatchMsg] ∧
      (handleInitServer (initHandler [] ['1']) ['0'] [] none).sessionLocal = none :=
  ⟨by decide, by decide,
    (handleInitServer_version_mismatch (initHandler [] ['1']) ['0'] [] none
      (by decide) (by decide)).1,
    (handleInitServer_version_mismatch (initHandler [] ['1']) ['0'] [] none
      (by decide) (by decide)).2.1⟩

/-- C7: `HandleCopyFromRemote` on a CPU-resident tensor with a local
serving session writes the `CopyAck` packet (length, opcode, raw bytes)
directly from tensor memory at `data + byte_offset` and returns to
`kRecvPacketNumBytes` without waiting; in every other case it allocates a
`data_bytes` staging buffer in the arena, switches to
`kWaitForAsyncCallback`, writes nothing yet, and the `CopyAck` is emitted
only by the async-copy completion. -/
theorem handleCopyFromRemote_paths (h : Handler) (arr : TensorDesc)
    (dataBytes : Nat) (isLocal : Bool) (hsess : h.sessionLocal = some isLocal) :
    (arr.deviceIsCPU = true ∧ isLocal = true →
      (handleCopyFromRemote h arr dataBytes).sent
          = h.sent ++ [WriteRec.u64 (4 + dataBytes), WriteRec.code RPCCode.kCopyAck,
              WriteRec.bytesFrom (arr.data + arr.byteOffset) dataBytes] ∧
        (handleCopyFromRemote h arr dataBytes).state = State.kRecvPacketNumBytes ∧
        (handleCopyFromRemote h arr dataBytes).waiting = h.waiting ∧
        (handleCopyFromRemote h arr dataBytes).arenaAllocs = h.arenaAllocs ∧
        (handleCopyFromRemote h arr dataBytes).switchLog
          = h.switchLog ++ [⟨State.kRecvPacketNumBytes,
              h.pending - tensorWireBytes arr.ndim - 8⟩]) ∧
    (¬(arr.deviceIsCPU = true ∧ isLocal = true) →
      (handleCopyFromRemote h arr dataBytes).sent = h.sent ∧
        (handleCopyFromRemote h arr dataBytes).state = State.kWaitForAsyncCallback ∧
        (handleCopyFromRemote h arr dataBytes).arenaAllocs
          = h.arenaAllocs ++ [dataBytes] ∧
        (handleCopyFromRemote h arr dataBytes).waiting
          = some (WaitKind.copyFromRemote dataBytes) ∧
        (handleAsyncDone (handleCopyFromRemote h arr dataBytes) true []).sent
          = h.sent ++ [WriteRec.u64 (4 + dataBytes), WriteRec.code RPCCode.kCopyAck,
              WriteRec.bytesStaged dataBytes] ∧
        (handleAsyncDone (handleCopyFromRemote h arr dataBytes) true []).state
          = State.kRecvPacketNumBytes) := by
  constructor
  · rintro ⟨hcpu, hloc⟩
    unfold handleCopyFromRemote fcopyack consumeBytes
    simp [hsess, hcpu, hloc, dmlcIoNoEndianSwap]
  · intro hne
    have hcond : (arr.deviceIsCPU && isLocal && dmlcIoNoEndianSwap) = false := by
      cases hc : arr.deviceIsCPU <;> cases hl : isLocal <;>
        simp_all [dmlcIoNoEndianSwap]
    unfold handleCopyFromRemote handleAsyncDone fcopyack consumeBytes
    simp [hsess, hcond]

theorem handleCopyFromRemote_paths_witness :
    ({ initHandler [] [] with sessionLocal := some true } : Handler).sessionLocal
        = some true ∧
      (handleCopyFromRemote { initHandler [] [] with sessionLocal := some true }
          ⟨true, 0, 100, 4⟩ 3).sent
        = ({ initHandler [] [] with sessionLocal := some true } : Handler).sent
            ++ [WriteRec.u64 (4 + 3), WriteRec.code RPCCode.kCopyAck,
                WriteRec.bytesFrom (100 + 4) 3] := by
  refine ⟨rfl, ?_⟩
  have hmain := (handleCopyFromRemote_paths
    { initHandler [] [] with sessionLocal := some true }
    ⟨true, 0, 100, 4⟩ 3 true rfl).1 ⟨rfl, rfl⟩
  simpa using hmain.1

/-- C8: in the drive loop, when the handler still needs bytes and the
channel delivers zero, the loop yields the `kShutdown` event exactly when
the handler is at the clean-shutdown boundary (`kRecvPacketNumBytes`), and
raises the fatal transport error in every other state. -/
theorem onZeroRecv_spec (h : Handler) (readerAvail : Nat)
    (hneed : bytesNeeded h.pending readerAvail ≠ 0) :
    (onZeroRecv h = Except.ok RPCCode.kShutdown
        ↔ h.state = State.kRecvPacketNumBytes) ∧
      (onZeroRecv h = Except.error DriveFatal.channelClosedBeforeNeededBytes
        ↔ h.state ≠ State.kRecvPacketNumBytes) := by
  unfold onZeroRecv canCleanShutdown
  by_cases hst : h.state = State.kRecvPacketNumBytes <;> simp [hst]

theorem onZeroRecv_spec_witness :
    bytesNeeded (initHandler [] []).pending 0 ≠ 0 ∧
      (onZeroRecv (initHandler [] []) = Except.ok RPCCode.kShutdown
        ↔ (initHandler [] []).state = State.kRecvPacketNumBytes) :=
  ⟨by decide, (onZeroRecv_spec (initHandler [] []) 0 (by decide)).1⟩

/-- C9: a handler constructed with the sentinel remote key `"%toinit"`
starts in `kInitHeader` requesting 4 bytes with a cleared key; reading the
i32 key length and then exactly that many key bytes stores them as the
remote key and only then switches to `kRecvPacketNumBytes` (8 bytes
pending); with any other remote key the handler starts directly in
`kRecvPacketNumBytes` requesting 8 bytes. -/
theorem initHeader_handshake (key ver kmat : List Char) :
    ((initHandler toinitKey ver).state = State.kInitHeader ∧
      (initHandler toinitKey ver).pending = 4 ∧
      (initHandler toinitKey ver).remoteKey = []) ∧
    ((step (initHandler toinitKey ver) (Ev.keyHeader kmat)).state
        = State.kRecvPacketNumBytes ∧
      (step (initHandler toinitKey ver) (Ev.keyHeader kmat)).pending = 8 ∧
      (step (initHandler toinitKey ver) (Ev.keyHeader kmat)).remoteKey = kmat) ∧
    (key ≠ toinitKey →
      (initHandler key ver).state = State.kRecvPacketNumBytes ∧
      (initHandler key ver).pending = 8 ∧
      (initHandler key ver).remoteKey = key) := by
  refine ⟨by simp [initHandler], ?_, ?_⟩
  · simp [step, initHandler, switchToState, requestBytes, consumeBytes]
  · intro hk
    simp [initHandler, hk]

theorem initHeader_handshake_witness :
    (['a'] : List Char) ≠ toinitKey ∧
      (initHandler ['a'] []).state = State.kRecvPacketNumBytes ∧
      (initHandler ['a'] []).pending = 8 ∧
      (initHandler ['a'] []).remoteKey = ['a'] :=
  ⟨by decide, (initHeader_handshake ['a'] [] []).2.2 (by decide)⟩

/-- C10: a received packet whose u64 length prefix is zero is silently
skipped: the handler consumes the 8-byte prefix, re-enters
`kRecvPacketNumBytes` requesting the next 8-byte prefix, raises no error,
reads no opcode and writes nothing. -/
theorem zeroFrame_skipped (h : Handler)
    (hst : h.state = State.kRecvPacketNumBytes) (hp : h.pending = 8)
    (hraised : h.raised = none) :
    (step h Ev.zeroFrame).state = State.kRecvPacketNumBytes ∧
      (step h Ev.zeroFrame).pending = 8 ∧
      (step h Ev.zeroFrame).raised = none ∧
      (step h Ev.zeroFrame).opcodesRead = h.opcodesRead ∧
      (step h Ev.zeroFrame).sent = h.sent ∧
      (step h Ev.zeroFrame).switchLog
        = h.switchLog ++ [⟨State.kRecvPacketNumBytes, 0⟩] := by
  rw [show step h Ev.zeroFrame
        = switchToState (consumeBytes h 8) State.kRecvPacketNumBytes by
      simp [step, hraised, hst]]
  simp [consumeBytes, hp, hraised]

theorem zeroFrame_skipped_witness :
    (initHandler ['a'] []).state = State.kRecvPacketNumBytes ∧
      (initHandler ['a'] []).pending = 8 ∧
      (initHandler ['a'] []).raised = none ∧
      (step (initHandler ['a'] []) Ev.zeroFrame).pending = 8 :=
  ⟨by decide, by decide, by decide,
    (zeroFrame_skipped (initHandler ['a'] []) (by decide) (by decide) (by decide)).2.1⟩

end TVMRPC
